import Mathlib

/-!
Verification of the synchronization and reconciliation subsystem of the
doctor-schedule-management repository.

The embedding below is a shallow translation of the TypeScript sources:

* `src/utils/backup.ts` — snapshot codec, version gate, reconciliation
  engine (`mergeBackupData` with its inner `mergeArrays`),
  `validateBackupData`, `validateBackupVersion`, `importBackup`.
* `src/components/BackupRestore.tsx` — the `handleImportBackup` flow that
  chains decode, version gate and reconciliation.
* `src/utils/googleDriveService.ts` — the remote container resolver
  (`getOrCreateAppFolder`, `createAppFolderSafely`) and the date revival
  in `loadBackup`.
* `src/utils/autoBackup.ts` — `shouldCreateAutoBackup`, `createAutoBackup`.

Records of the six collections are opaque to the reconciliation engine: it
only reads the string `id` field.  They are therefore embedded as a record
with an `id` and an opaque remainder `fields`; equality of the embedded
record is byte-for-byte equality of the source record.

JavaScript `Date.getTime()` timestamps are embedded as `Int` milliseconds;
ISO timestamp strings stay `String`.  Network effects, console logging and
`localStorage` are made explicit: backend responses become parameters of
the resolver, diagnostics become an explicit list of `Diag` values, and the
`localStorage` cells used by the auto-backup module become an explicit
state record.
-/

/-- One record of any of the six collections: the engine reads only `id`;
`fields` stands for the rest of the record, opaque and compared
byte-for-byte. -/
structure Item where
  id : String
  fields : String
deriving DecidableEq

/-- The six collections held in local state (`current` argument of
`mergeBackupData`); all six are present. -/
structure LocalPayload where
  schedules : List Item
  persons : List Item
  leaveRequests : List Item
  oneTimeWork : List Item
  onCalls : List Item
  nurseOnCalls : List Item
deriving DecidableEq

/-- The `data` part of a decoded backup (`BackupData['data']`):
`nurseOnCalls` may be absent in snapshots written by older versions, which
the source handles with `backup.nurseOnCalls || []`. -/
structure BackupPayload where
  schedules : List Item
  persons : List Item
  leaveRequests : List Item
  oneTimeWork : List Item
  onCalls : List Item
  nurseOnCalls : Option (List Item)
deriving DecidableEq

/-- The two reconciliation modes of `mergeBackupData`. -/
inductive MergeMode where
  | replace
  | merge
deriving DecidableEq

/-- Inner helper of `mergeBackupData` (backup.ts lines 229-233): collect the
ids of the current array into a set, keep the backup items whose id is not
in it, and append them after the current array. -/
def mergeArrays (currentArray backupArray : List Item) : List Item :=
  let existingIds := currentArray.map Item.id
  let newItems := backupArray.filter (fun item => !(existingIds.contains item.id))
  currentArray ++ newItems

/-- `mergeBackupData` (backup.ts lines 202-243).  In replace mode the
backup is returned with `nurseOnCalls` defaulted to `[]` when absent; in
merge mode each collection is merged independently with `mergeArrays`. -/
def mergeBackupData (current : LocalPayload) (backup : BackupPayload)
    (mode : MergeMode) : LocalPayload :=
  match mode with
  | .replace =>
      { schedules := backup.schedules
        persons := backup.persons
        leaveRequests := backup.leaveRequests
        oneTimeWork := backup.oneTimeWork
        onCalls := backup.onCalls
        nurseOnCalls := backup.nurseOnCalls.getD [] }
  | .merge =>
      { schedules := mergeArrays current.schedules backup.schedules
        persons := mergeArrays current.persons backup.persons
        leaveRequests := mergeArrays current.leaveRequests backup.leaveRequests
        oneTimeWork := mergeArrays current.oneTimeWork backup.oneTimeWork
        onCalls := mergeArrays current.onCalls backup.onCalls
        nurseOnCalls := mergeArrays current.nurseOnCalls (backup.nurseOnCalls.getD []) }

lemma contains_map_id_iff (l : List Item) (s : String) :
    ((l.map Item.id).contains s = true) ↔ ∃ it ∈ l, it.id = s := by
  constructor
  · intro h
    have hmem : s ∈ l.map Item.id := List.mem_of_elem_eq_true h
    obtain ⟨it, hit, hid⟩ := List.mem_map.mp hmem
    exact ⟨it, hit, hid⟩
  · rintro ⟨it, hit, rfl⟩
    exact List.elem_eq_true_of_mem (List.mem_map_of_mem Item.id hit)

/-- Merging the same backup array into the result of a first merge adds
nothing: every backup id is already present afterwards. -/
lemma mergeArrays_idem (cur bak : List Item) :
    mergeArrays (mergeArrays cur bak) bak = mergeArrays cur bak := by
  simp only [mergeArrays]
  have hnil :
      bak.filter (fun item =>
        !(((cur ++ bak.filter (fun item => !((cur.map Item.id).contains item.id))).map
            Item.id).contains item.id)) = [] := by
    rw [List.filter_eq_nil_iff]
    intro it hit hcontra
    have hfalse : ((cur ++ bak.filter
        (fun item => !((cur.map Item.id).contains item.id))).map Item.id).contains it.id
          = false := by
      simpa using hcontra
    have htrue : ((cur ++ bak.filter
        (fun item => !((cur.map Item.id).contains item.id))).map Item.id).contains it.id
          = true := by
      apply (contains_map_id_iff _ _).mpr
      by_cases hc : (cur.map Item.id).contains it.id = true
      · obtain ⟨w, hw, hwid⟩ := (contains_map_id_iff _ _).mp hc
        exact ⟨w, List.mem_append_left _ hw, hwid⟩
      · have hcf : (cur.map Item.id).contains it.id = false := by
          simpa using hc
        have hpred : (fun item => !((cur.map Item.id).contains item.id)) it = true := by
          show (!((cur.map Item.id).contains it.id)) = true
          rw [hcf]
          exact Bool.not_false
        exact ⟨it, List.mem_append_right _ (List.mem_filter.mpr ⟨hit, hpred⟩), rfl⟩
    rw [htrue] at hfalse
    simp at hfalse
  rw [hnil, List.append_nil]

/-- C1.  Merge idempotence: applying the merge reconciliation twice with
the same incoming payload equals applying it once, for each of the six
sequences (here as equality of whole payloads). -/
theorem mergeBackupData_merge_idempotent (L : LocalPayload) (I : BackupPayload) :
    mergeBackupData (mergeBackupData L I .merge) I .merge = mergeBackupData L I .merge := by
  simp only [mergeBackupData, LocalPayload.mk.injEq]
  exact ⟨mergeArrays_idem _ _, mergeArrays_idem _ _, mergeArrays_idem _ _,
    mergeArrays_idem _ _, mergeArrays_idem _ _, mergeArrays_idem _ _⟩

/-- C2.  Merge no-loss and deterministic ordering: for each of the six
sequences, every local record is present unmodified in the merge result,
and the result is exactly the local sequence in original order followed by
the incoming records whose id is absent from the local sequence, in
incoming order. -/
theorem mergeBackupData_merge_no_loss_order (L : LocalPayload) (I : BackupPayload) :
    let R := mergeBackupData L I .merge
    ((∀ r ∈ L.schedules, r ∈ R.schedules) ∧
      R.schedules = L.schedules ++
        I.schedules.filter (fun it => !((L.schedules.map Item.id).contains it.id))) ∧
    ((∀ r ∈ L.persons, r ∈ R.persons) ∧
      R.persons = L.persons ++
        I.persons.filter (fun it => !((L.persons.map Item.id).contains it.id))) ∧
    ((∀ r ∈ L.leaveRequests, r ∈ R.leaveRequests) ∧
      R.leaveRequests = L.leaveRequests ++
        I.leaveRequests.filter (fun it => !((L.leaveRequests.map Item.id).contains it.id))) ∧
    ((∀ r ∈ L.oneTimeWork, r ∈ R.oneTimeWork) ∧
      R.oneTimeWork = L.oneTimeWork ++
        I.oneTimeWork.filter (fun it => !((L.oneTimeWork.map Item.id).contains it.id))) ∧
    ((∀ r ∈ L.onCalls, r ∈ R.onCalls) ∧
      R.onCalls = L.onCalls ++
        I.onCalls.filter (fun it => !((L.onCalls.map Item.id).contains it.id))) ∧
    ((∀ r ∈ L.nurseOnCalls, r ∈ R.nurseOnCalls) ∧
      R.nurseOnCalls = L.nurseOnCalls ++
        (I.nurseOnCalls.getD []).filter
          (fun it => !((L.nurseOnCalls.map Item.id).contains it.id))) := by
  refine ⟨⟨?_, rfl⟩, ⟨?_, rfl⟩, ⟨?_, rfl⟩, ⟨?_, rfl⟩, ⟨?_, rfl⟩, ⟨?_, rfl⟩⟩ <;>
    · intro r hr
      exact List.mem_append_left _ hr

/-- C3.  Replace totality: in replace mode each sequence present in the
incoming payload is taken verbatim, and the one sequence that may be
absent in a legacy snapshot (`nurseOnCalls`) becomes the empty list. -/
theorem mergeBackupData_replace_totality (L : LocalPayload) (I : BackupPayload) :
    let R := mergeBackupData L I .replace
    R.schedules = I.schedules ∧
    R.persons = I.persons ∧
    R.leaveRequests = I.leaveRequests ∧
    R.oneTimeWork = I.oneTimeWork ∧
    R.onCalls = I.onCalls ∧
    (∀ l, I.nurseOnCalls = some l → R.nurseOnCalls = l) ∧
    (I.nurseOnCalls = none → R.nurseOnCalls = []) := by
  refine ⟨rfl, rfl, rfl, rfl, rfl, ?_, ?_⟩
  · intro l hl
    simp [mergeBackupData, hl]
  · intro hl
    simp [mergeBackupData, hl]

/-- Closed instance of C3 at a concrete local payload and a concrete
legacy incoming payload without `nurseOnCalls`, discharging both
implications of the theorem. -/
theorem mergeBackupData_replace_totality_witness :
    (mergeBackupData
        ⟨[Item.mk "s1" "a"], [], [], [], [], [Item.mk "n1" "b"]⟩
        ⟨[Item.mk "s2" "c"], [], [], [], [], none⟩ .replace).schedules
      = [Item.mk "s2" "c"] ∧
    (mergeBackupData
        ⟨[Item.mk "s1" "a"], [], [], [], [], [Item.mk "n1" "b"]⟩
        ⟨[Item.mk "s2" "c"], [], [], [], [], none⟩ .replace).nurseOnCalls = [] := by
  refine ⟨?_, ?_⟩
  · exact (mergeBackupData_replace_totality
      ⟨[Item.mk "s1" "a"], [], [], [], [], [Item.mk "n1" "b"]⟩
      ⟨[Item.mk "s2" "c"], [], [], [], [], none⟩).1
  · exact (mergeBackupData_replace_totality
      ⟨[Item.mk "s1" "a"], [], [], [], [], [Item.mk "n1" "b"]⟩
      ⟨[Item.mk "s2" "c"], [], [], [], [], none⟩).2.2.2.2.2.2 rfl

/-- C10.  Merge preserves id-uniqueness relative to the local side: if the
local array and the backup array each have pairwise-distinct ids, so does
the merged array.  The second conjunct shows the hypothesis on the backup
array is necessary: two incoming records sharing an id absent from the
local side are both appended. -/
theorem mergeArrays_nodup_relative :
    (∀ cur bak : List Item,
      (cur.map Item.id).Nodup → (bak.map Item.id).Nodup →
      ((mergeArrays cur bak).map Item.id).Nodup) ∧
    mergeArrays [] [Item.mk "x" "1", Item.mk "x" "2"]
      = [Item.mk "x" "1", Item.mk "x" "2"] := by
  constructor
  · intro cur bak hc hb
    simp only [mergeArrays, List.map_append]
    refine hc.append ?_ ?_
    · exact hb.sublist ((List.filter_sublist bak).map Item.id)
    · intro s hs hs'
      obtain ⟨it, hit, hitid⟩ := List.mem_map.mp hs'
      have hpred := (List.mem_filter.mp hit).2
      have hcontains : (cur.map Item.id).contains it.id = true :=
        List.elem_eq_true_of_mem (hitid ▸ hs)
      rw [hcontains] at hpred
      simp at hpred
  · rfl

/-- Closed instance of C10: merging two disjoint singleton arrays keeps
the ids pairwise distinct, with both Nodup hypotheses discharged by
computation. -/
theorem mergeArrays_nodup_relative_witness :
    ((mergeArrays [Item.mk "a" "p"] [Item.mk "b" "q"]).map Item.id).Nodup :=
  mergeArrays_nodup_relative.1 [Item.mk "a" "p"] [Item.mk "b" "q"]
    (by decide) (by decide)

/-- A decoded backup document after structural validation: version string,
ISO timestamp string, and the payload (`BackupData` in backup.ts). -/
structure BackupData where
  version : String
  timestamp : String
  data : BackupPayload
deriving DecidableEq

/-- `createBackup` (backup.ts lines 17-37): stamps version 1.0.0 and the
current ISO timestamp over the six collections. -/
def createBackup (schedules persons leaveRequests oneTimeWork onCalls
    nurseOnCalls : List Item) (nowIso : String) : BackupData :=
  { version := "1.0.0"
    timestamp := nowIso
    data :=
      { schedules := schedules
        persons := persons
        leaveRequests := leaveRequests
        oneTimeWork := oneTimeWork
        onCalls := onCalls
        nurseOnCalls := some nurseOnCalls } }

/-- `validateBackupVersion` (backup.ts lines 197-200): membership of the
snapshot version in the fixed allow-list. -/
def validateBackupVersion (backupData : BackupData) : Bool :=
  let supportedVersions := ["1.0.0"]
  supportedVersions.contains backupData.version

/-- The import flow of `handleImportBackup` (BackupRestore.tsx lines
51-85) after a successful decode: the version gate throws before
`mergeBackupData` runs; only the success branch invokes the reconciliation
engine and hands the merged data to `onRestore`. -/
def handleImportBackup (current : LocalPayload) (backupData : BackupData)
    (restoreMode : MergeMode) : Except String LocalPayload :=
  if validateBackupVersion backupData then
    Except.ok (mergeBackupData current backupData.data restoreMode)
  else
    Except.error "サポートされていないバージョンのバックアップファイルです"

/-- C4.  Version gate: a decoded snapshot whose version is not in the
allow-list ["1.0.0"] makes the import flow fail with the unsupported
version error, and no merged payload is ever produced, so the
reconciliation engine is not reached and local state is untouched. -/
theorem version_gate_blocks_merge (current : LocalPayload)
    (backupData : BackupData) (restoreMode : MergeMode)
    (h : backupData.version ≠ "1.0.0") :
    handleImportBackup current backupData restoreMode
        = Except.error "サポートされていないバージョンのバックアップファイルです" ∧
      ∀ result, handleImportBackup current backupData restoreMode ≠ Except.ok result := by
  have hv : validateBackupVersion backupData = false := by
    simp [validateBackupVersion]
    exact h
  constructor
  · simp [handleImportBackup, hv]
  · intro result
    simp [handleImportBackup, hv]

/-- Closed instance of C4 at version 0.9.0, its hypothesis discharged by
computation. -/
theorem version_gate_blocks_merge_witness :
    handleImportBackup ⟨[], [], [], [], [], []⟩
        ⟨"0.9.0", "t", ⟨[], [], [], [], [], none⟩⟩ .merge
      = Except.error "サポートされていないバージョンのバックアップファイルです" :=
  (version_gate_blocks_merge ⟨[], [], [], [], [], []⟩
    ⟨"0.9.0", "t", ⟨[], [], [], [], [], none⟩⟩ .merge (by decide)).1

/-- A parsed JSON value, the input of `validateBackupData` (backup.ts
lines 181-195), which receives the raw result of `JSON.parse`. -/
inductive JValue where
  | jnull
  | jbool (b : Bool)
  | jnum (n : Int)
  | jstr (s : String)
  | jarr (elems : List JValue)
  | jobj (fields : List (String × JValue))

/-- JavaScript truthiness of a parsed JSON value: null, false, 0 and the
empty string are falsy; arrays and objects are always truthy. -/
def truthy : JValue → Bool
  | .jnull => false
  | .jbool b => b
  | .jnum n => n != 0
  | .jstr s => s != ""
  | .jarr _ => true
  | .jobj _ => true

/-- JavaScript `typeof v === \x27object\x27` on a parsed JSON value: true for
null, arrays and objects. -/
def isObjectType : JValue → Bool
  | .jnull => true
  | .jarr _ => true
  | .jobj _ => true
  | _ => false

/-- Property access `v[k]`: `none` plays the role of `undefined` (absent
key, or access on a non-object). -/
def getField : JValue → String → Option JValue
  | .jobj fields, k => List.lookup k fields
  | _, _ => none

/-- Truthiness of a possibly-undefined value (`undefined` is falsy). -/
def oTruthy : Option JValue → Bool
  | none => false
  | some v => truthy v

/-- `Array.isArray` on a possibly-undefined value. -/
def oIsArray : Option JValue → Bool
  | some (.jarr _) => true
  | _ => false

/-- `validateBackupData` (backup.ts lines 181-195): requires a truthy
object with truthy `version`, `timestamp` and `data`, and requires the
five original collections of `data` to be arrays; `nurseOnCalls` is
checked as `Array.isArray(nurseOnCalls || [])`, so an absent (or falsy)
`nurseOnCalls` passes — backward compatibility with older snapshots. -/
def validateBackupData (data : JValue) : Bool :=
  if !(truthy data) || !(isObjectType data) then false
  else if !(oTruthy (getField data "version")) || !(oTruthy (getField data "timestamp"))
      || !(oTruthy (getField data "data")) then false
  else
    match getField data "data" with
    | none => false
    | some d =>
        oIsArray (getField d "schedules") &&
        oIsArray (getField d "persons") &&
        oIsArray (getField d "leaveRequests") &&
        oIsArray (getField d "oneTimeWork") &&
        oIsArray (getField d "onCalls") &&
        (match getField d "nurseOnCalls" with
         | none => true
         | some v => if truthy v then oIsArray (some v) else true)

/-- `importBackup` (backup.ts lines 152-179) after the file has been read
and parsed: resolve with the document when validation passes, otherwise
reject with the malformed-snapshot error. -/
def importBackup (doc : JValue) : Except String JValue :=
  if validateBackupData doc then Except.ok doc
  else Except.error "無効なバックアップファイルです"

/-- Builds a parsed backup document with the five original collections and
no `nurseOnCalls` key, as written by an older version of the app. -/
def legacyDoc (ver ts : String) (s p l o c : List JValue) : JValue :=
  .jobj [("version", .jstr ver), ("timestamp", .jstr ts),
    ("data", .jobj [("schedules", .jarr s), ("persons", .jarr p),
      ("leaveRequests", .jarr l), ("oneTimeWork", .jarr o), ("onCalls", .jarr c)])]

/-- C7.  Decode backward compatibility: a document with truthy version and
timestamp whose `data` holds the five original collections as arrays and
no `nurseOnCalls` key is accepted; any document missing `version`,
`timestamp` or `data`, or whose `data` has one of the five original
collections missing or not an array, is rejected with the
malformed-snapshot error. -/
theorem decode_backward_compat :
    (∀ ver ts : String, ∀ s p l o c : List JValue, ver ≠ "" → ts ≠ "" →
      importBackup (legacyDoc ver ts s p l o c) = Except.ok (legacyDoc ver ts s p l o c)) ∧
    (∀ doc : JValue, getField doc "version" = none →
      importBackup doc = Except.error "無効なバックアップファイルです") ∧
    (∀ doc : JValue, getField doc "timestamp" = none →
      importBackup doc = Except.error "無効なバックアップファイルです") ∧
    (∀ doc : JValue, getField doc "data" = none →
      importBackup doc = Except.error "無効なバックアップファイルです") ∧
    (∀ doc d : JValue, getField doc "data" = some d →
      (oIsArray (getField d "schedules") = false ∨
       oIsArray (getField d "persons") = false ∨
       oIsArray (getField d "leaveRequests") = false ∨
       oIsArray (getField d "oneTimeWork") = false ∨
       oIsArray (getField d "onCalls") = false) →
      importBackup doc = Except.error "無効なバックアップファイルです") := by
  refine ⟨?_, ?_, ?_, ?_, ?_⟩
  · intro ver ts s p l o c hver hts
    simp [importBackup, validateBackupData, legacyDoc, getField, truthy, isObjectType,
      oTruthy, oIsArray, List.lookup, hver, hts]
  · intro doc h
    simp [importBackup, validateBackupData, h, oTruthy]
  · intro doc h
    simp [importBackup, validateBackupData, h, oTruthy]
  · intro doc h
    simp [importBackup, validateBackupData, h, oTruthy]
  · intro doc d hd hbad
    have hval : validateBackupData doc = false := by
      unfold validateBackupData
      rw [hd]
      rcases hbad with h | h | h | h | h <;> simp [h]
    simp [importBackup, hval]

/-- Closed instance of C7: a concrete legacy document without
`nurseOnCalls` is accepted, and dropping its `schedules` array is
rejected, all hypotheses discharged by computation. -/
theorem decode_backward_compat_witness :
    importBackup (legacyDoc "1.0.0" "2024-01-01" [] [] [] [] [])
      = Except.ok (legacyDoc "1.0.0" "2024-01-01" [] [] [] [] []) ∧
    importBackup (.jobj [("version", .jstr "1.0.0"), ("timestamp", .jstr "t"),
        ("data", .jobj [("persons", .jarr [])])])
      = Except.error "無効なバックアップファイルです" := by
  constructor
  · exact decode_backward_compat.1 "1.0.0" "2024-01-01" [] [] [] [] []
      (by decide) (by decide)
  · exact decode_backward_compat.2.2.2.2
      (.jobj [("version", .jstr "1.0.0"), ("timestamp", .jstr "t"),
        ("data", .jobj [("persons", .jarr [])])])
      (.jobj [("persons", .jarr [])]) rfl (Or.inl rfl)

/-- The two `localStorage` cells used by autoBackup.ts, made explicit:
the last-run timestamp (milliseconds since epoch, the value of
`new Date(stored).getTime()`) and the stored backup history. -/
structure AutoState where
  lastAutoBackup : Option Int
  autoBackups : List BackupData
deriving DecidableEq

/-- Auto-backup interval (autoBackup.ts line 19): 24 hours in
milliseconds. -/
def AUTO_BACKUP_INTERVAL : Int := 24 * 60 * 60 * 1000

/-- History cap (autoBackup.ts line 20). -/
def MAX_AUTO_BACKUPS : Nat := 7

/-- `shouldCreateAutoBackup` (autoBackup.ts lines 22-38): true when no
previous run is recorded, or when at least the configured interval has
elapsed since it. -/
def shouldCreateAutoBackup (st : AutoState) (now : Int) : Bool :=
  match st.lastAutoBackup with
  | none => true
  | some lastBackupDate => decide (AUTO_BACKUP_INTERVAL ≤ now - lastBackupDate)

/-- `createAutoBackup` (autoBackup.ts lines 40-70): build a snapshot of
the six collections, append it to the stored history, drop the oldest
entries past the cap (`splice(0, length - MAX)`), and record the run
time. -/
def createAutoBackup (st : AutoState) (d : LocalPayload) (nowMs : Int)
    (nowIso : String) : AutoState :=
  let backupData := createBackup d.schedules d.persons d.leaveRequests
    d.oneTimeWork d.onCalls d.nurseOnCalls nowIso
  let existingBackups := st.autoBackups ++ [backupData]
  let trimmed :=
    if existingBackups.length > MAX_AUTO_BACKUPS then
      existingBackups.drop (existingBackups.length - MAX_AUTO_BACKUPS)
    else existingBackups
  { lastAutoBackup := some nowMs, autoBackups := trimmed }

/-- C9.  Auto-backup gate and retention bound: the gate is true exactly
when no run is recorded or the 24-hour interval has elapsed; after every
`createAutoBackup` the history has at most 7 entries, equals the most
recent entries of the appended history (oldest evicted first), ends with
the snapshot just created, and the last-run time is updated. -/
theorem auto_backup_gate_and_retention :
    (∀ (st : AutoState) (now : Int),
      shouldCreateAutoBackup st now = true ↔
        (st.lastAutoBackup = none ∨
          ∃ t, st.lastAutoBackup = some t ∧ AUTO_BACKUP_INTERVAL ≤ now - t)) ∧
    (∀ (st : AutoState) (d : LocalPayload) (nowMs : Int) (nowIso : String),
      let b := createBackup d.schedules d.persons d.leaveRequests d.oneTimeWork
        d.onCalls d.nurseOnCalls nowIso
      let st' := createAutoBackup st d nowMs nowIso
      st'.autoBackups.length ≤ MAX_AUTO_BACKUPS ∧
      st'.autoBackups
        = (st.autoBackups ++ [b]).drop (st.autoBackups.length + 1 - MAX_AUTO_BACKUPS) ∧
      st'.autoBackups.getLast? = some b ∧
      st'.lastAutoBackup = some nowMs) := by
  constructor
  · intro st now
    cases hlast : st.lastAutoBackup with
    | none => simp [shouldCreateAutoBackup, hlast]
    | some t => simp [shouldCreateAutoBackup, hlast]
  · intro st d nowMs nowIso
    set b := createBackup d.schedules d.persons d.leaveRequests d.oneTimeWork
      d.onCalls d.nurseOnCalls nowIso with hb
    have hlen : (st.autoBackups ++ [b]).length = st.autoBackups.length + 1 := by
      simp
    have hdrople : st.autoBackups.length + 1 - MAX_AUTO_BACKUPS ≤ st.autoBackups.length := by
      have : 1 ≤ MAX_AUTO_BACKUPS := by decide
      omega
    have heq : (createAutoBackup st d nowMs nowIso).autoBackups
        = (st.autoBackups ++ [b]).drop (st.autoBackups.length + 1 - MAX_AUTO_BACKUPS) := by
      simp only [createAutoBackup, ← hb, hlen]
      by_cases hgt : st.autoBackups.length + 1 > MAX_AUTO_BACKUPS
      · simp [hgt]
      · have hzero : st.autoBackups.length + 1 - MAX_AUTO_BACKUPS = 0 := by omega
        simp [hgt, hzero]
    refine ⟨?_, heq, ?_, rfl⟩
    · rw [heq, List.length_drop, hlen]
      have : 1 ≤ MAX_AUTO_BACKUPS := by decide
      omega
    · rw [heq, List.drop_append_of_le_length hdrople]
      simp

/-- Closed instance of C9: the gate fires with no recorded run, and after
a creation on a full 7-entry history the history is still at the cap. -/
theorem auto_backup_gate_and_retention_witness :
    shouldCreateAutoBackup ⟨none, []⟩ 0 = true ∧
    (createAutoBackup
        ⟨some 0, List.replicate 7 (createBackup [] [] [] [] [] [] "t0")⟩
        ⟨[], [], [], [], [], []⟩ 99 "t1").autoBackups.length ≤ MAX_AUTO_BACKUPS := by
  constructor
  · exact (auto_backup_gate_and_retention.1 ⟨none, []⟩ 0).mpr (Or.inl rfl)
  · exact (auto_backup_gate_and_retention.2
      ⟨some 0, List.replicate 7 (createBackup [] [] [] [] [] [] "t0")⟩
      ⟨[], [], [], [], [], []⟩ 99 "t1").1

/-- Metadata of one folder as returned by the Drive search
(googleDriveService.ts `findAllAppFolders`): `driveId` is set exactly for
folders living in a shared drive; `permissionsCount`, `ownedByMe` mirror
the possibly-absent JSON fields; `modifiedTime` is the parsed timestamp in
milliseconds. -/
structure Folder where
  id : String
  name : String
  driveId : Option String
  shared : Bool
  permissionsCount : Option Nat
  ownedByMe : Option Bool
  modifiedTime : Int
deriving DecidableEq

/-- Diagnostics the resolver logs, relevant to duplicate detection. -/
inductive Diag where
  | multipleFoldersFound
  | duplicateAfterCreation
  | recommendFixedId (id : String)
deriving DecidableEq

/-- First element of the search results after the descending stable sort
by `modifiedTime` (`sort((a, b) => b - a)[0]`): the earliest listed folder
among those with maximal modification time. -/
def latestFolder : List Folder → Option Folder
  | [] => none
  | f :: fs =>
      some (fs.foldl (fun best g => if g.modifiedTime > best.modifiedTime then g else best) f)

lemma foldl_latest_mem (fs : List Folder) (a : Folder) :
    fs.foldl (fun best g => if g.modifiedTime > best.modifiedTime then g else best) a = a ∨
      fs.foldl (fun best g => if g.modifiedTime > best.modifiedTime then g else best) a ∈ fs := by
  induction fs generalizing a with
  | nil => exact Or.inl rfl
  | cons f fs ih =>
      rcases ih (if f.modifiedTime > a.modifiedTime then f else a) with h | h
      · by_cases hc : f.modifiedTime > a.modifiedTime
        · right
          rw [List.foldl_cons, h]
          simp [hc]
        · left
          rw [List.foldl_cons, h]
          simp [hc]
      · right
        exact List.mem_cons_of_mem f h

lemma foldl_latest_ge_init (fs : List Folder) (a : Folder) :
    a.modifiedTime ≤
      (fs.foldl (fun best g => if g.modifiedTime > best.modifiedTime then g else best)
        a).modifiedTime := by
  induction fs generalizing a with
  | nil => exact le_refl _
  | cons f fs ih =>
      rw [List.foldl_cons]
      refine le_trans ?_ (ih (if f.modifiedTime > a.modifiedTime then f else a))
      by_cases hc : f.modifiedTime > a.modifiedTime
      · simp [hc]
        omega
      · simp [hc]

lemma foldl_latest_ge_mem (fs : List Folder) (a : Folder) (g : Folder) (hg : g ∈ fs) :
    g.modifiedTime ≤
      (fs.foldl (fun best g => if g.modifiedTime > best.modifiedTime then g else best)
        a).modifiedTime := by
  induction fs generalizing a with
  | nil => cases hg
  | cons f fs ih =>
      rw [List.foldl_cons]
      rcases List.mem_cons.mp hg with rfl | hmem
      · refine le_trans ?_
          (foldl_latest_ge_init fs (if g.modifiedTime > a.modifiedTime then g else a))
        by_cases hc : g.modifiedTime > a.modifiedTime
        · simp [hc]
        · simp [hc]
          omega
      · exact ih _ hmem

lemma latestFolder_spec {l : List Folder} (hne : l ≠ []) :
    ∃ lf, latestFolder l = some lf ∧ lf ∈ l ∧
      ∀ g ∈ l, g.modifiedTime ≤ lf.modifiedTime := by
  cases l with
  | nil => exact absurd rfl hne
  | cons f fs =>
      refine ⟨fs.foldl (fun best x => if x.modifiedTime > best.modifiedTime then x else best) f,
        ?_, ?_, ?_⟩
      · rfl
      · rcases foldl_latest_mem fs f with h | h
        · rw [h]; exact List.mem_cons_self f fs
        · exact List.mem_cons_of_mem f h
      · intro g hg
        rcases List.mem_cons.mp hg with rfl | hmem
        · exact foldl_latest_ge_init fs g
        · exact foldl_latest_ge_mem fs f g hmem

/-- The backend responses and configuration one resolution run observes:
the optional operator-pinned folder id and whether its metadata probe
succeeds, the folder-name search results, the id of the target shared
drive when discoverable, the id the backend assigns to a folder created by
this client, and the search results of the re-run after creation. -/
structure ResolveEnv where
  fixedFolderId : Option String
  fixedFolderReachable : Bool
  searchResults : List Folder
  targetSharedDriveId : Option String
  createdFolderId : String
  postCreateSearch : List Folder
deriving DecidableEq

/-- `createAppFolderSafely` (googleDriveService.ts lines 397-472) with a
successful creation call: create in the target shared drive when one is
found, wait, re-run the search; when the re-search reports more than one
folder, log the duplication diagnostics and return the most recently
modified folder of that shared drive if it differs from the one just
created, else the created one.  Without a target shared drive the folder
is created in the personal drive and returned directly. -/
def createAppFolderSafely (env : ResolveEnv) : String × List Diag :=
  match env.targetSharedDriveId with
  | some sharedDriveId =>
      let verifyFolders := env.postCreateSearch
      if verifyFolders.length > 1 then
        let inTarget := verifyFolders.filter (fun f => f.driveId == some sharedDriveId)
        match latestFolder inTarget with
        | some lf =>
            if lf.id ≠ env.createdFolderId then
              (lf.id, [Diag.duplicateAfterCreation,
                Diag.recommendFixedId env.createdFolderId, Diag.recommendFixedId lf.id])
            else
              (env.createdFolderId,
                [Diag.duplicateAfterCreation, Diag.recommendFixedId env.createdFolderId])
        | none =>
            (env.createdFolderId,
              [Diag.duplicateAfterCreation, Diag.recommendFixedId env.createdFolderId])
      else
        (env.createdFolderId, [Diag.recommendFixedId env.createdFolderId])
  | none => (env.createdFolderId, [])

/-- The shared-folder classification of step 3 of `getOrCreateAppFolder`
(lines 362-373): explicitly shared, more than one permission entry, or not
owned by the current user. -/
def isSharedFolder (f : Folder) : Bool :=
  f.shared || (match f.permissionsCount with | some n => decide (n > 1) | none => false)
    || !(f.ownedByMe == some true)

/-- `getOrCreateAppFolder` (googleDriveService.ts lines 300-394): use the
pinned folder id when configured and reachable; otherwise search by name
and prefer, in order, the most recently modified shared-drive folder, then
the most recently modified shared folder, then the most recently modified
folder of all; when the search finds nothing, fall into
`createAppFolderSafely`.  The final `none` branches are unreachable since
`latestFolder` is total on the non-empty lists they match on. -/
def getOrCreateAppFolder (env : ResolveEnv) : String × List Diag :=
  match env.fixedFolderId with
  | some fid =>
      if env.fixedFolderReachable then (fid, [])
      else getOrCreateAppFolderSearch env
  | none => getOrCreateAppFolderSearch env
where
  getOrCreateAppFolderSearch (env : ResolveEnv) : String × List Diag :=
    let allFolders := env.searchResults
    if allFolders.isEmpty then createAppFolderSafely env
    else
      let warn : List Diag :=
        if allFolders.length > 1 then [Diag.multipleFoldersFound] else []
      let sharedDriveFolders := allFolders.filter (fun f => f.driveId.isSome)
      match latestFolder sharedDriveFolders with
      | some lf => (lf.id, warn)
      | none =>
          let sharedFolders := allFolders.filter isSharedFolder
          match latestFolder sharedFolders with
          | some lf => (lf.id, warn)
          | none =>
              match latestFolder allFolders with
              | some lf => (lf.id, warn)
              | none => createAppFolderSafely env

/-- C5.  Resolver shared-space preference: when no folder id is pinned and
the name search returns at least one shared-drive folder and at least one
private folder, resolution returns a shared-drive folder, the most
recently modified among the shared-drive ones, whatever the modification
times of the private folders are. -/
theorem resolver_prefers_shared_space (env : ResolveEnv)
    (hfix : env.fixedFolderId = none)
    (f : Folder) (hfmem : f ∈ env.searchResults) (hfsome : f.driveId.isSome = true)
    (g : Folder) (_hgmem : g ∈ env.searchResults) (_hgnone : g.driveId = none) :
    ∃ lf, latestFolder (env.searchResults.filter (fun x => x.driveId.isSome)) = some lf ∧
      (getOrCreateAppFolder env).1 = lf.id ∧
      lf ∈ env.searchResults ∧ lf.driveId.isSome = true ∧
      ∀ h ∈ env.searchResults, h.driveId.isSome = true →
        h.modifiedTime ≤ lf.modifiedTime := by
  have hfsd : f ∈ env.searchResults.filter (fun x => x.driveId.isSome) :=
    List.mem_filter.mpr ⟨hfmem, hfsome⟩
  obtain ⟨lf, hlf, hlfmem, hlfmax⟩ :=
    latestFolder_spec (List.ne_nil_of_mem hfsd)
  have hlfmem' := List.mem_filter.mp hlfmem
  refine ⟨lf, hlf, ?_, hlfmem'.1, hlfmem'.2, ?_⟩
  · have hempty : env.searchResults.isEmpty = false := by
      simpa using List.ne_nil_of_mem hfmem
    simp only [getOrCreateAppFolder, hfix, getOrCreateAppFolder.getOrCreateAppFolderSearch,
      hempty, Bool.false_eq_true, if_false, hlf]
  · intro h hmem hsome
    exact hlfmax h (List.mem_filter.mpr ⟨hmem, hsome⟩)

/-- The backend scenario of the C5 witness: one private folder modified
later than one shared-drive folder, no pinned id. -/
def envC5 : ResolveEnv :=
  { fixedFolderId := none
    fixedFolderReachable := false
    searchResults :=
      [⟨"privId", "app", none, false, none, some true, 999⟩,
       ⟨"sharedId", "app", some "drv", false, none, some true, 10⟩]
    targetSharedDriveId := none
    createdFolderId := "newId"
    postCreateSearch := [] }

/-- Closed instance of C5: with a private folder modified after the
shared-drive folder, resolution still returns the shared-drive one. -/
theorem resolver_prefers_shared_space_witness :
    (getOrCreateAppFolder envC5).1 = "sharedId" := by
  obtain ⟨lf, hlf, hres, _, _, _⟩ :=
    resolver_prefers_shared_space envC5 rfl
      ⟨"sharedId", "app", some "drv", false, none, some true, 10⟩
      (by simp [envC5]) rfl
      ⟨"privId", "app", none, false, none, some true, 999⟩
      (by simp [envC5]) rfl
  have hcalc : latestFolder (envC5.searchResults.filter (fun x => x.driveId.isSome))
      = some ⟨"sharedId", "app", some "drv", false, none, some true, 10⟩ := by rfl
  rw [hcalc] at hlf
  injection hlf with hlf'
  rw [hres, ← hlf']

/-- The race scenario refuting C6 as stated: this client creates "ownId"
in shared drive "drv"; the re-search finds it (modified at 100) together
with a concurrently created "otherId" (modified at 50, hence older). -/
def envC6cex : ResolveEnv :=
  { fixedFolderId := none
    fixedFolderReachable := false
    searchResults := []
    targetSharedDriveId := some "drv"
    createdFolderId := "ownId"
    postCreateSearch :=
      [⟨"ownId", "app", some "drv", false, none, some true, 100⟩,
       ⟨"otherId", "app", some "drv", false, none, some true, 50⟩] }

/-- Counterexample to C6 as stated: the re-search after creation reports
two containers in the same shared space, one of which was not created by
this client, yet the resolver returns exactly the container this client
just created — the concurrent creation does not win when the own folder
has the later modification time. -/
theorem duplicate_recovery_counterexample :
    (createAppFolderSafely envC6cex).1 = envC6cex.createdFolderId ∧
    (envC6cex.postCreateSearch.filter (fun f => f.driveId == some "drv")).length = 2 ∧
    (∃ f ∈ envC6cex.postCreateSearch,
      f.id ≠ envC6cex.createdFolderId ∧ f.driveId = some "drv") := by
  refine ⟨rfl, rfl, ⟨⟨"otherId", "app", some "drv", false, none, some true, 50⟩,
    ?_, ?_, rfl⟩⟩
  · simp [envC6cex]
  · decide

/-- C6 (amended).  Duplicate-creation race recovery: after creating in a
shared space, if the re-run search reports more than one container, the
resolver logs the duplication diagnostic and the fixed-id recommendation,
and returns the most recently modified container of that shared space
(which is the concurrently created one only when that one is more
recently modified than the one just created); with no container of that
shared space in the re-search it returns its own creation. -/
theorem duplicate_recovery_latest_wins (env : ResolveEnv) (sid : String)
    (hsid : env.targetSharedDriveId = some sid)
    (hdup : env.postCreateSearch.length > 1) :
    Diag.duplicateAfterCreation ∈ (createAppFolderSafely env).2 ∧
    Diag.recommendFixedId env.createdFolderId ∈ (createAppFolderSafely env).2 ∧
    ((env.postCreateSearch.filter (fun f => f.driveId == some sid)) = [] →
      (createAppFolderSafely env).1 = env.createdFolderId) ∧
    (∀ f ∈ env.postCreateSearch.filter (fun f => f.driveId == some sid),
      ∃ lf, latestFolder (env.postCreateSearch.filter (fun f => f.driveId == some sid))
          = some lf ∧
        (createAppFolderSafely env).1 = lf.id ∧
        lf.driveId = some sid ∧ lf ∈ env.postCreateSearch ∧
        ∀ g ∈ env.postCreateSearch, g.driveId = some sid →
          g.modifiedTime ≤ lf.modifiedTime) := by
  have hred : createAppFolderSafely env =
      (match latestFolder (env.postCreateSearch.filter (fun f => f.driveId == some sid)) with
       | some lf =>
           if lf.id ≠ env.createdFolderId then
             (lf.id, [Diag.duplicateAfterCreation,
               Diag.recommendFixedId env.createdFolderId, Diag.recommendFixedId lf.id])
           else
             (env.createdFolderId,
               [Diag.duplicateAfterCreation, Diag.recommendFixedId env.createdFolderId])
       | none =>
           (env.createdFolderId,
             [Diag.duplicateAfterCreation, Diag.recommendFixedId env.createdFolderId])) := by
    simp only [createAppFolderSafely, hsid]
    rw [if_pos hdup]
  cases hflt : latestFolder (env.postCreateSearch.filter (fun f => f.driveId == some sid)) with
  | none =>
      rw [hflt] at hred
      have hred2 : createAppFolderSafely env =
          (env.createdFolderId,
            [Diag.duplicateAfterCreation, Diag.recommendFixedId env.createdFolderId]) := hred
      refine ⟨by simp [hred2], by simp [hred2], fun _ => by simp [hred2], ?_⟩
      intro f hf
      obtain ⟨lf, hlf, _, _⟩ := latestFolder_spec (List.ne_nil_of_mem hf)
      rw [hflt] at hlf
      cases hlf
  | some lf =>
      rw [hflt] at hred
      have hred2 : createAppFolderSafely env =
          (if lf.id ≠ env.createdFolderId then
            (lf.id, [Diag.duplicateAfterCreation,
              Diag.recommendFixedId env.createdFolderId, Diag.recommendFixedId lf.id])
          else
            (env.createdFolderId,
              [Diag.duplicateAfterCreation, Diag.recommendFixedId env.createdFolderId])) := hred
      obtain ⟨lf2, hlf2, hmem2, hmax2⟩ :
          ∃ x, latestFolder (env.postCreateSearch.filter (fun f => f.driveId == some sid))
              = some x ∧
            x ∈ env.postCreateSearch.filter (fun f => f.driveId == some sid) ∧
            ∀ g ∈ env.postCreateSearch.filter (fun f => f.driveId == some sid),
              g.modifiedTime ≤ x.modifiedTime := by
        apply latestFolder_spec
        intro hnil
        rw [hnil] at hflt
        simp [latestFolder] at hflt
      rw [hflt] at hlf2
      injection hlf2 with hlf2e
      subst hlf2e
      have hprops := List.mem_filter.mp hmem2
      have hdid : lf.driveId = some sid := by simpa using hprops.2
      have hresult : (createAppFolderSafely env).1 = lf.id := by
        by_cases hne : lf.id = env.createdFolderId
        · rw [hred2, if_neg (not_not_intro hne)]
          exact hne.symm
        · rw [hred2, if_pos hne]
      have hmax : ∀ g ∈ env.postCreateSearch, g.driveId = some sid →
          g.modifiedTime ≤ lf.modifiedTime := by
        intro g hg hgd
        exact hmax2 g (List.mem_filter.mpr ⟨hg, by simpa using hgd⟩)
      refine ⟨?_, ?_, ?_, ?_⟩
      · by_cases hne : lf.id = env.createdFolderId
        · rw [hred2, if_neg (not_not_intro hne)]
          simp
        · rw [hred2, if_pos hne]
          simp
      · by_cases hne : lf.id = env.createdFolderId
        · rw [hred2, if_neg (not_not_intro hne)]
          simp
        · rw [hred2, if_pos hne]
          simp
      · intro hnil
        rw [hnil] at hflt
        simp [latestFolder] at hflt
      · intro f hf
        exact ⟨lf, rfl, hresult, hdid, hprops.1, hmax⟩

/-- The race scenario of the C6 witness: the concurrently created folder
"otherId" has the later modification time, so it wins. -/
def envC6wit : ResolveEnv :=
  { fixedFolderId := none
    fixedFolderReachable := false
    searchResults := []
    targetSharedDriveId := some "drv"
    createdFolderId := "ownId"
    postCreateSearch :=
      [⟨"ownId", "app", some "drv", false, none, some true, 50⟩,
       ⟨"otherId", "app", some "drv", false, none, some true, 100⟩] }

/-- Closed instance of the amended C6: a duplicate whose modification time
is later than the own creation is returned, and the duplication diagnostic
is logged, all hypotheses discharged by computation. -/
theorem duplicate_recovery_latest_wins_witness :
    (createAppFolderSafely envC6wit).1 = "otherId" ∧
    Diag.duplicateAfterCreation ∈ (createAppFolderSafely envC6wit).2 := by
  have thm := duplicate_recovery_latest_wins envC6wit "drv" rfl (by decide)
  constructor
  · obtain ⟨lf, hlf, hres, _, _, _⟩ :=
      thm.2.2.2 ⟨"otherId", "app", some "drv", false, none, some true, 100⟩ (by decide)
    have hcalc : latestFolder
        (envC6wit.postCreateSearch.filter (fun f => f.driveId == some "drv"))
        = some ⟨"otherId", "app", some "drv", false, none, some true, 100⟩ := by rfl
    rw [hcalc] at hlf
    injection hlf with hlf'
    rw [hres, ← hlf']
  · exact thm.1

/-- A record as it arrives over the wire in a fetched backup: the three
date-like keys the revival loop of `loadBackup` looks at, each either
absent or a string, and the rest of the record opaque.  Per the type
declarations of the repository, `Person` records carry none of the three
keys; the other five record types carry them as non-empty ISO strings
where present. -/
structure WireRec where
  id : String
  date : Option String
  startDate : Option String
  endDate : Option String
  rest : String
deriving DecidableEq

/-- A date-like field after `loadBackup` ran: still absent, left as the
string it was (the `if (item.date)` guard skipped it), or replaced by
`new Date(s)` — embedded as `revived s`, the native date remembering its
source string. -/
inductive DateField where
  | absent
  | raw (s : String)
  | revived (s : String)
deriving DecidableEq

/-- A record after `loadBackup` ran. -/
structure LoadedRec where
  id : String
  date : DateField
  startDate : DateField
  endDate : DateField
  rest : String
deriving DecidableEq

/-- One date-like field through the revival loop: `if (item.date)
item.date = new Date(item.date)` — absent stays absent, a falsy (empty)
string is left alone, a non-empty string becomes a native date. -/
def reviveField : Option String → DateField
  | none => .absent
  | some s => if s ≠ "" then .revived s else .raw s

/-- One date-like field of a record of a sequence the loop does not
visit: left exactly as it was. -/
def keepField : Option String → DateField
  | none => .absent
  | some s => .raw s

/-- One record through the revival loop. -/
def reviveItem (r : WireRec) : LoadedRec :=
  { id := r.id, date := reviveField r.date, startDate := reviveField r.startDate,
    endDate := reviveField r.endDate, rest := r.rest }

/-- One record of a sequence the loop does not visit. -/
def keepItem (r : WireRec) : LoadedRec :=
  { id := r.id, date := keepField r.date, startDate := keepField r.startDate,
    endDate := keepField r.endDate, rest := r.rest }

/-- The payload of a fetched backup document; `nurseOnCalls` may be
absent in legacy snapshots (the loop guards each key with
`if (backupData.data[key])`). -/
structure WirePayload where
  schedules : List WireRec
  persons : List WireRec
  leaveRequests : List WireRec
  oneTimeWork : List WireRec
  onCalls : List WireRec
  nurseOnCalls : Option (List WireRec)
deriving DecidableEq

/-- The payload returned by `loadBackup`. -/
structure LoadedPayload where
  schedules : List LoadedRec
  persons : List LoadedRec
  leaveRequests : List LoadedRec
  oneTimeWork : List LoadedRec
  onCalls : List LoadedRec
  nurseOnCalls : Option (List LoadedRec)
deriving DecidableEq

/-- The date revival of `loadBackup` (googleDriveService.ts lines
877-908): the loop visits the keys schedules, leaveRequests, oneTimeWork,
onCalls and nurseOnCalls — `persons` is not in the visited list and is
passed through untouched. -/
def loadBackup (p : WirePayload) : LoadedPayload :=
  { schedules := p.schedules.map reviveItem
    persons := p.persons.map keepItem
    leaveRequests := p.leaveRequests.map reviveItem
    oneTimeWork := p.oneTimeWork.map reviveItem
    onCalls := p.onCalls.map reviveItem
    nurseOnCalls := p.nurseOnCalls.map (fun l => l.map reviveItem) }

/-- True when the field is no longer a plain wire string: either the
record never had it or it now holds a native date. -/
def fieldConverted : DateField → Bool
  | .raw _ => false
  | _ => true

/-- All three date-like fields of a loaded record are converted. -/
def recConverted (r : LoadedRec) : Bool :=
  fieldConverted r.date && fieldConverted r.startDate && fieldConverted r.endDate

/-- Every record of every sequence of a loaded payload is converted. -/
def payloadConverted (p : LoadedPayload) : Bool :=
  p.schedules.all recConverted && p.persons.all recConverted &&
  p.leaveRequests.all recConverted && p.oneTimeWork.all recConverted &&
  p.onCalls.all recConverted &&
  (match p.nurseOnCalls with
   | none => true
   | some l => l.all recConverted)

/-- A wire record with no empty-string date fields (every date-like field
present on the wire is a non-empty ISO string). -/
def WireRec.noEmptyDates (r : WireRec) : Prop :=
  r.date ≠ some "" ∧ r.startDate ≠ some "" ∧ r.endDate ≠ some ""

/-- A wire record carrying none of the three date-like keys, as every
`Person` record does per the repository's type declarations. -/
def WireRec.noDates (r : WireRec) : Prop :=
  r.date = none ∧ r.startDate = none ∧ r.endDate = none

lemma reviveItem_converted (r : WireRec) (h : r.noEmptyDates) :
    recConverted (reviveItem r) = true := by
  obtain ⟨h1, h2, h3⟩ := h
  simp only [recConverted, reviveItem, Bool.and_eq_true]
  refine ⟨⟨?_, ?_⟩, ?_⟩ <;>
  · first
    | (cases hf : r.date with
       | none => simp [reviveField, fieldConverted]
       | some s =>
           rw [hf] at h1
           have hs : s ≠ "" := fun he => h1 (by rw [he])
           simp [reviveField, hs, fieldConverted])
    | (cases hf : r.startDate with
       | none => simp [reviveField, fieldConverted]
       | some s =>
           rw [hf] at h2
           have hs : s ≠ "" := fun he => h2 (by rw [he])
           simp [reviveField, hs, fieldConverted])
    | (cases hf : r.endDate with
       | none => simp [reviveField, fieldConverted]
       | some s =>
           rw [hf] at h3
           have hs : s ≠ "" := fun he => h3 (by rw [he])
           simp [reviveField, hs, fieldConverted])

lemma keepItem_converted (r : WireRec) (h : r.noDates) :
    recConverted (keepItem r) = true := by
  obtain ⟨h1, h2, h3⟩ := h
  simp [recConverted, keepItem, h1, h2, h3, keepField, fieldConverted]

/-- C8.  Load date revival: for a fetched payload whose `persons` records
carry no date-like keys (as the `Person` type prescribes) and whose
date-like fields hold non-empty wire strings, every date-like field of
every record of every sequence of `loadBackup`'s result holds a native
date (or was never there). -/
theorem loadBackup_revives_dates (p : WirePayload)
    (hpersons : ∀ r ∈ p.persons, r.noDates)
    (hsch : ∀ r ∈ p.schedules, r.noEmptyDates)
    (hlr : ∀ r ∈ p.leaveRequests, r.noEmptyDates)
    (hotw : ∀ r ∈ p.oneTimeWork, r.noEmptyDates)
    (hoc : ∀ r ∈ p.onCalls, r.noEmptyDates)
    (hnoc : ∀ l, p.nurseOnCalls = some l → ∀ r ∈ l, r.noEmptyDates) :
    payloadConverted (loadBackup p) = true := by
  simp only [payloadConverted, loadBackup, Bool.and_eq_true, List.all_eq_true]
  refine ⟨⟨⟨⟨⟨?_, ?_⟩, ?_⟩, ?_⟩, ?_⟩, ?_⟩
  · intro x hx
    obtain ⟨r, hr, rfl⟩ := List.mem_map.mp hx
    exact reviveItem_converted r (hsch r hr)
  · intro x hx
    obtain ⟨r, hr, rfl⟩ := List.mem_map.mp hx
    exact keepItem_converted r (hpersons r hr)
  · intro x hx
    obtain ⟨r, hr, rfl⟩ := List.mem_map.mp hx
    exact reviveItem_converted r (hlr r hr)
  · intro x hx
    obtain ⟨r, hr, rfl⟩ := List.mem_map.mp hx
    exact reviveItem_converted r (hotw r hr)
  · intro x hx
    obtain ⟨r, hr, rfl⟩ := List.mem_map.mp hx
    exact reviveItem_converted r (hoc r hr)
  · cases hn : p.nurseOnCalls with
    | none => simp
    | some l =>
        show ((l.map reviveItem).all recConverted) = true
        rw [List.all_eq_true]
        intro x hx
        obtain ⟨r, hr, rfl⟩ := List.mem_map.mp hx
        exact reviveItem_converted r (hnoc l hn r hr)

/-- Closed instance of C8 at a one-record-per-sequence payload, all
hypotheses discharged by computation. -/
theorem loadBackup_revives_dates_witness :
    payloadConverted (loadBackup
      { schedules := [⟨"s1", none, some "2024-01-01", some "2024-12-31", "w"⟩]
        persons := [⟨"p1", none, none, none, "doctor"⟩]
        leaveRequests := [⟨"l1", some "2024-02-02", none, none, "leave"⟩]
        oneTimeWork := [⟨"o1", some "2024-03-03", none, none, "work"⟩]
        onCalls := [⟨"c1", some "2024-04-04", none, none, "call"⟩]
        nurseOnCalls := none }) = true := by
  apply loadBackup_revives_dates <;>
    first
      | (intro r hr
         simp only [List.mem_singleton] at hr
         subst hr
         constructor <;> simp [WireRec.noEmptyDates, WireRec.noDates])
      | (intro l hl
         cases hl)
